import Mathlib

set_option maxHeartbeats 1000000

/-!
Shallow embedding of the keyframe animation engine of
`framework/scene_graph/components/animation.h` /
`framework/scene_graph/components/animation.cpp`.

Modelling conventions:
* `float` values are modelled as exact rationals (`ℚ`).
* `uint32_t` / `size_t` arithmetic is modelled on `Nat` with explicit
  `% 2 ^ 32` / `% 2 ^ 64` at the points where the source performs
  machine-integer arithmetic (the `static_cast<uint32_t>` casts in
  `cubicSplineInterpolation` and the `inputs.size() - 1` loop bound in
  `Animation::update`).
* An out-of-bounds `std::vector` access (undefined behaviour in the
  source) is modelled by `Option`: every index access goes through
  `l[i]?` and a `none` result marks an execution that reads out of
  bounds.
* The external glm quaternion operations `glm::normalize` and
  `glm::slerp` compute irrational values; they are modelled
  symbolically by the free constructors of `GQuat`.  The repository's
  own code only builds and forwards these values, so the symbolic
  model captures exactly what the repository computes.
-/

/-- The first three components of a `glm::vec3`-valued quantity. -/
structure Vec3 where
  x : ℚ
  y : ℚ
  z : ℚ
deriving DecidableEq

/-- A `glm::vec4` value. -/
structure Vec4 where
  x : ℚ
  y : ℚ
  z : ℚ
  w : ℚ
deriving DecidableEq

/-- Component access `v[i]` on a `glm::vec4`. -/
def Vec4.get (v : Vec4) (i : Nat) : ℚ :=
  match i with
  | 0 => v.x
  | 1 => v.y
  | 2 => v.z
  | 3 => v.w
  | _ => 0

/-- Component update `v[i] = q` on a `glm::vec4`. -/
def Vec4.set (v : Vec4) (i : Nat) (q : ℚ) : Vec4 :=
  match i with
  | 0 => { v with x := q }
  | 1 => { v with y := q }
  | 2 => { v with z := q }
  | 3 => { v with w := q }
  | _ => v

/-- The `glm::vec4` → `glm::vec3` truncating conversion (drops `w`). -/
def Vec4.toVec3 (v : Vec4) : Vec3 :=
  ⟨v.x, v.y, v.z⟩

/-- `glm::mix(a, b, u)` on vectors: componentwise `a*(1-u) + b*u`. -/
def Vec4.mix (a b : Vec4) (u : ℚ) : Vec4 :=
  ⟨a.x * (1 - u) + b.x * u,
   a.y * (1 - u) + b.y * u,
   a.z * (1 - u) + b.z * u,
   a.w * (1 - u) + b.w * u⟩

/-- Quaternion values produced by the rotation path.  `raw` is a
quaternion built componentwise from rational floats; `normalize` and
`slerp` are the external glm operations, kept symbolic because their
results are irrational. -/
inductive GQuat where
  | raw (x y z w : ℚ)
  | normalize (q : GQuat)
  | slerp (q1 q2 : GQuat) (u : ℚ)
deriving DecidableEq

/-- The squared magnitude of a quaternion, defined (rationally) for
componentwise-built quaternions only. -/
def GQuat.magSq : GQuat → Option ℚ
  | .raw x y z w => some (x ^ 2 + y ^ 2 + z ^ 2 + w ^ 2)
  | _ => none

/-- `true` exactly when the outermost operation applied to the
quaternion is `glm::normalize`. -/
def GQuat.isNormalizeApplied : GQuat → Bool
  | .normalize _ => true
  | _ => false

/-- The target node's transform, restricted to the three properties the
animation engine writes (`Transform::set_translation`,
`set_rotation`, `set_scale`). -/
structure Transform where
  translation : Vec3
  rotation : GQuat
  scale : Vec3
deriving DecidableEq

def Transform.set_translation (t : Transform) (v : Vec3) : Transform :=
  { t with translation := v }

def Transform.set_rotation (t : Transform) (q : GQuat) : Transform :=
  { t with rotation := q }

def Transform.set_scale (t : Transform) (v : Vec3) : Transform :=
  { t with scale := v }

/-- `AnimationSampler::InterpolationType`. -/
inductive InterpolationType where
  | LINEAR
  | STEP
  | CUBICSPLINE
deriving DecidableEq

/-- `AnimationChannel::PathType`. -/
inductive PathType where
  | TRANSLATION
  | ROTATION
  | SCALE
deriving DecidableEq

/-- `vkb::sg::AnimationSampler` (animation.h). -/
structure AnimationSampler where
  interpolation : InterpolationType
  inputs : List ℚ
  outputsVec4 : List Vec4
  outputs : List ℚ
deriving DecidableEq

/-- `vkb::sg::AnimationChannel` (animation.h); the node pointer is
modelled as an index into an external list of node transforms. -/
structure AnimationChannel where
  path : PathType
  samplerIndex : Nat
  node : Nat
deriving DecidableEq

/-- `AnimationSampler::cubicSplineInterpolation` (animation.cpp lines
7–31).  `current` and `next` are `uint32_t`, hence the `% 2 ^ 32`;
`m1` is computed by the source but, faithfully to line 28, the last
Hermite term multiplies `m0`. -/
def AnimationSampler.cubicSplineInterpolation (s : AnimationSampler)
    (index : Nat) (time : ℚ) (stride : Nat) : Option Vec4 := do
  let i0 ← s.inputs[index]?
  let i1 ← s.inputs[index + 1]?
  let delta := i1 - i0
  let t := (time - i0) / delta
  let current := (index * stride * 3) % 2 ^ 32
  let next := ((index + 1) * stride * 3) % 2 ^ 32
  let A := 0
  let V := stride
  let B := stride * 2
  let t2 := t ^ 2
  let t3 := t ^ 3
  (List.range stride).foldlM (fun pt i => do
      let p0 ← s.outputs[(current + i + V) % 2 ^ 32]?
      let a0 ← s.outputs[(current + i + A) % 2 ^ 32]?
      let m0 := delta * a0
      let p1 ← s.outputs[(next + i + V) % 2 ^ 32]?
      let b1 ← s.outputs[(next + i + B) % 2 ^ 32]?
      let m1 := delta * b1
      pure (pt.set i
        (((2 * t3 - 3 * t2 + 1) * p0) + ((t3 - 2 * t2 + t) * m0) +
         ((-2 * t3 + 3 * t2) * p1) + ((t3 - t2) * m0))))
    (⟨0, 0, 0, 0⟩ : Vec4)

/-- `AnimationSampler::translate` (animation.cpp lines 33–55). -/
def AnimationSampler.translate (s : AnimationSampler) (index : Nat)
    (time : ℚ) (node : Transform) : Option Transform :=
  match s.interpolation with
  | .LINEAR => do
      let i0 ← s.inputs[index]?
      let i1 ← s.inputs[index + 1]?
      let u := max 0 (time - i0) / (i1 - i0)
      let o0 ← s.outputsVec4[index]?
      let o1 ← s.outputsVec4[index + 1]?
      pure (node.set_translation ((Vec4.mix o0 o1 u).toVec3))
  | .STEP => do
      let o0 ← s.outputsVec4[index]?
      pure (node.set_translation o0.toVec3)
  | .CUBICSPLINE => do
      let v ← s.cubicSplineInterpolation index time 3
      pure (node.set_translation v.toVec3)

/-- `AnimationSampler::scale` (animation.cpp lines 57–79). -/
def AnimationSampler.scale (s : AnimationSampler) (index : Nat)
    (time : ℚ) (node : Transform) : Option Transform :=
  match s.interpolation with
  | .LINEAR => do
      let i0 ← s.inputs[index]?
      let i1 ← s.inputs[index + 1]?
      let u := max 0 (time - i0) / (i1 - i0)
      let o0 ← s.outputsVec4[index]?
      let o1 ← s.outputsVec4[index + 1]?
      pure (node.set_scale ((Vec4.mix o0 o1 u).toVec3))
  | .STEP => do
      let o0 ← s.outputsVec4[index]?
      pure (node.set_scale o0.toVec3)
  | .CUBICSPLINE => do
      let v ← s.cubicSplineInterpolation index time 3
      pure (node.set_scale v.toVec3)

/-- `AnimationSampler::rotate` (animation.cpp lines 81–125).  LINEAR
normalizes a slerp, CUBICSPLINE normalizes the spline result, STEP
writes the keyframe quaternion with no normalization. -/
def AnimationSampler.rotate (s : AnimationSampler) (index : Nat)
    (time : ℚ) (node : Transform) : Option Transform :=
  match s.interpolation with
  | .LINEAR => do
      let i0 ← s.inputs[index]?
      let i1 ← s.inputs[index + 1]?
      let u := max 0 (time - i0) / (i1 - i0)
      let o0 ← s.outputsVec4[index]?
      let o1 ← s.outputsVec4[index + 1]?
      let q1 := GQuat.raw o0.x o0.y o0.z o0.w
      let q2 := GQuat.raw o1.x o1.y o1.z o1.w
      pure (node.set_rotation (GQuat.normalize (GQuat.slerp q1 q2 u)))
  | .STEP => do
      let o0 ← s.outputsVec4[index]?
      pure (node.set_rotation (GQuat.raw o0.x o0.y o0.z o0.w))
  | .CUBICSPLINE => do
      let rot ← s.cubicSplineInterpolation index time 4
      pure (node.set_rotation (GQuat.normalize (GQuat.raw rot.x rot.y rot.z rot.w)))

/-- `vkb::sg::Animation` (animation.h). -/
structure Animation where
  animation_samplers : List AnimationSampler
  animation_channels : List AnimationChannel
  current_time : ℚ
  start : ℚ
  «end» : ℚ
deriving DecidableEq

/-- `std::numeric_limits<float>::max()`: the largest finite IEEE-754
single-precision value, `(2 - 2 ^ -23) * 2 ^ 127`. -/
def flt_max : ℚ := 2 ^ 128 - 2 ^ 104

/-- `std::numeric_limits<float>::min()`: the smallest positive normal
IEEE-754 single-precision value, `2 ^ -126`. -/
def flt_min : ℚ := (2 ^ 126 : ℚ)⁻¹

/-- `Animation::Animation(name)` combined with the in-class field
initializers of animation.h lines 58–64: `current_time = 0.0f`,
`start = std::numeric_limits<float>::max()`,
`end = std::numeric_limits<float>::min()`. -/
def Animation.init (samplers : List AnimationSampler)
    (channels : List AnimationChannel) : Animation :=
  { animation_samplers := samplers
    animation_channels := channels
    current_time := 0
    start := flt_max
    «end» := flt_min }

/-- The clock step of `Animation::update` (animation.cpp lines
169–174): `current_time += delta_time; if (current_time > end)
current_time = 0.0f;`. -/
def advanceTime (current_time delta_time endv : ℚ) : ℚ :=
  let ct := current_time + delta_time
  if endv < ct then 0 else ct

/-- The `switch (animation_channel.path)` dispatch of
`Animation::update` (animation.cpp lines 153–163) together with the
node-pointer dereference `*animation_channel.node` and the write-back:
evaluate segment `i` of sampler `s` into node `nodeIdx`. -/
def Animation.segWrite (s : AnimationSampler) (path : PathType)
    (current_time : ℚ) (nodeIdx i : Nat) (nodes : List Transform) :
    Option (List Transform) := do
  let node ← nodes[nodeIdx]?
  let node' ←
    match path with
    | .TRANSLATION => s.translate i current_time node
    | .SCALE => s.scale i current_time node
    | .ROTATION => s.rotate i current_time node
  pure (nodes.set nodeIdx node')

/-- One iteration of the inner segment loop of `Animation::update`
(animation.cpp lines 148–166): the boundary-inclusive containment test
(with C++ short-circuit evaluation of the two index reads), the
redundant `u <= 1.0f` guard, and — when the segment matches — the
evaluation `segWrite`. -/
def Animation.segStep (s : AnimationSampler) (path : PathType)
    (current_time : ℚ) (nodeIdx i : Nat) (nodes : List Transform) :
    Option (List Transform) := do
  let ti ← s.inputs[i]?
  if ti ≤ current_time then do
    let ti1 ← s.inputs[i + 1]?
    if current_time ≤ ti1 then
      let u := max 0 (current_time - ti) / (ti1 - ti)
      if u ≤ 1 then
        Animation.segWrite s path current_time nodeIdx i nodes
      else pure nodes
    else pure nodes
  else pure nodes

/-- The inner segment loop of `Animation::update` (animation.cpp lines
146–167), iterating over `fuel` consecutive indices starting at `i`;
`fuel` is instantiated with the `size_t` expression
`inputs.size() - 1`. -/
def Animation.segScan (s : AnimationSampler) (path : PathType)
    (current_time : ℚ) (nodeIdx : Nat) :
    Nat → Nat → List Transform → Option (List Transform)
  | _, 0, nodes => some nodes
  | i, fuel + 1, nodes =>
      (Animation.segStep s path current_time nodeIdx i nodes).bind
        (Animation.segScan s path current_time nodeIdx (i + 1) fuel)

/-- The per-channel body of `Animation::update` (animation.cpp lines
138–168): resolve the sampler, apply the malformed-track guard
`inputs.size() > outputsVec4.size()`, then run the segment loop whose
`size_t` bound is `(inputs.size() - 1) mod 2 ^ 64`. -/
def Animation.channelStep (a : Animation) (nodes : List Transform)
    (ch : AnimationChannel) : Option (List Transform) := do
  let smp ← a.animation_samplers[ch.samplerIndex]?
  if smp.outputsVec4.length < smp.inputs.length then
    pure nodes
  else
    Animation.segScan smp ch.path a.current_time ch.node 0
      ((smp.inputs.length + (2 ^ 64 - 1)) % 2 ^ 64) nodes

/-- `Animation::update(delta_time)` (animation.cpp lines 135–175):
evaluate every channel at the current `current_time`, then advance the
clock.  Returns the updated animation state and node transforms, or
`none` when the run performs an out-of-bounds access. -/
def Animation.update (a : Animation) (nodes : List Transform)
    (delta_time : ℚ) : Option (Animation × List Transform) := do
  let nodes' ← a.animation_channels.foldlM (Animation.channelStep a) nodes
  pure ({ a with current_time := advanceTime a.current_time delta_time a.«end» },
        nodes')

/-- Modelled from the spec (§3, §4.1 CUBIC): the documented Hermite
evaluation.  The flat value layout stores, per keyframe `k` and
component `c`: in-tangent at `k*stride*3 + c`, value at
`k*stride*3 + stride + c`, out-tangent at `k*stride*3 + stride*2 + c`.
The spec sets `m0 = delta * out_tangent[i]`,
`m1 = delta * in_tangent[i+1]`, takes `t` to be the clamped fraction,
and multiplies the final `(t3 - t2)` term by `m1`. -/
def specCubicHermite (s : AnimationSampler) (index : Nat) (time : ℚ)
    (stride : Nat) : Option Vec4 := do
  let i0 ← s.inputs[index]?
  let i1 ← s.inputs[index + 1]?
  let delta := i1 - i0
  let t := max 0 (time - i0) / delta
  let t2 := t ^ 2
  let t3 := t ^ 3
  (List.range stride).foldlM (fun pt c => do
      let p0 ← s.outputs[index * stride * 3 + stride + c]?
      let outTan0 ← s.outputs[index * stride * 3 + stride * 2 + c]?
      let m0 := delta * outTan0
      let p1 ← s.outputs[(index + 1) * stride * 3 + stride + c]?
      let inTan1 ← s.outputs[(index + 1) * stride * 3 + c]?
      let m1 := delta * inTan1
      pure (pt.set c
        (((2 * t3 - 3 * t2 + 1) * p0) + ((t3 - 2 * t2 + t) * m0) +
         ((-2 * t3 + 3 * t2) * p1) + ((t3 - t2) * m1))))
    (⟨0, 0, 0, 0⟩ : Vec4)

/-- Modelled from the spec (§4.1): `cubicSplineInterpolation` exactly
as the source computes it, except that the spline parameter is the
clamped fraction `max 0 (time - times[i]) / delta` that the spec
prescribes for every mode. -/
def cubicSplineClampedFraction (s : AnimationSampler) (index : Nat)
    (time : ℚ) (stride : Nat) : Option Vec4 := do
  let i0 ← s.inputs[index]?
  let i1 ← s.inputs[index + 1]?
  let delta := i1 - i0
  let t := max 0 (time - i0) / delta
  let current := (index * stride * 3) % 2 ^ 32
  let next := ((index + 1) * stride * 3) % 2 ^ 32
  let A := 0
  let V := stride
  let B := stride * 2
  let t2 := t ^ 2
  let t3 := t ^ 3
  (List.range stride).foldlM (fun pt i => do
      let p0 ← s.outputs[(current + i + V) % 2 ^ 32]?
      let a0 ← s.outputs[(current + i + A) % 2 ^ 32]?
      let m0 := delta * a0
      let p1 ← s.outputs[(next + i + V) % 2 ^ 32]?
      let b1 ← s.outputs[(next + i + B) % 2 ^ 32]?
      let m1 := delta * b1
      pure (pt.set i
        (((2 * t3 - 3 * t2 + 1) * p0) + ((t3 - 2 * t2 + t) * m0) +
         ((-2 * t3 + 3 * t2) * p1) + ((t3 - t2) * m0))))
    (⟨0, 0, 0, 0⟩ : Vec4)

/-! ### Concrete fixtures used by the counterexamples and witnesses -/

/-- A node transform with sentinel values, so that any write is
visible. -/
def baseTransform : Transform :=
  { translation := ⟨7, 7, 7⟩, rotation := .raw 0 0 0 1, scale := ⟨1, 1, 1⟩ }

/-- A channel animating the translation of node 0 through sampler 0. -/
def trChannel : AnimationChannel :=
  { path := .TRANSLATION, samplerIndex := 0, node := 0 }

/-- A channel animating the rotation of node 0 through sampler 0. -/
def rotChannel : AnimationChannel :=
  { path := .ROTATION, samplerIndex := 0, node := 0 }

/-- CUBIC sampler over one segment `[0, 1]` whose flat outputs are all
zero except the in-tangent of keyframe 1 on component 0 (flat index 9,
stride 3 layout). -/
def cubicBugSampler : AnimationSampler :=
  { interpolation := .CUBICSPLINE
    inputs := [0, 1]
    outputsVec4 := []
    outputs := [0, 0, 0, 0, 0, 0, 0, 0, 0, 1, 0, 0, 0, 0, 0, 0, 0, 0] }

/-- CUBIC sampler over one segment `[0, 1]` whose flat outputs are all
zero except the value of keyframe 0 on component 0 (flat index 3,
stride 3 layout). -/
def cubicNegTimeSampler : AnimationSampler :=
  { interpolation := .CUBICSPLINE
    inputs := [0, 1]
    outputsVec4 := []
    outputs := [0, 0, 0, 1, 0, 0, 0, 0, 0, 0, 0, 0, 0, 0, 0, 0, 0, 0] }

/-- LINEAR translation track: times `[0, 1]`, values
`[(0,0,0), (10,0,0)]` — the spec's concrete scenario. -/
def linearScenarioSampler : AnimationSampler :=
  { interpolation := .LINEAR
    inputs := [0, 1]
    outputsVec4 := [⟨0, 0, 0, 0⟩, ⟨10, 0, 0, 0⟩]
    outputs := [] }

/-- Fresh clip (current_time 0, end 1) around the spec's concrete
LINEAR scenario. -/
def linearScenarioClip : Animation :=
  { animation_samplers := [linearScenarioSampler]
    animation_channels := [trChannel]
    current_time := 0
    start := 0
    «end» := 1 }

/-- LINEAR track with one MORE value than time stamps. -/
def valuesLongerSampler : AnimationSampler :=
  { interpolation := .LINEAR
    inputs := [0, 1]
    outputsVec4 := [⟨0, 0, 0, 0⟩, ⟨10, 0, 0, 0⟩, ⟨99, 0, 0, 0⟩]
    outputs := [] }

/-- Clip holding `valuesLongerSampler`, frozen at `current_time = 1/2`. -/
def valuesLongerClip : Animation :=
  { animation_samplers := [valuesLongerSampler]
    animation_channels := [trChannel]
    current_time := 1/2
    start := 0
    «end» := 1 }

/-- STEP translation track with three keyframes, so that `time = 1` is
the shared boundary of segments 0 and 1. -/
def stepBoundarySampler : AnimationSampler :=
  { interpolation := .STEP
    inputs := [0, 1, 2]
    outputsVec4 := [⟨1, 0, 0, 0⟩, ⟨2, 0, 0, 0⟩, ⟨3, 0, 0, 0⟩]
    outputs := [] }

/-- Clip holding `stepBoundarySampler`, frozen at the shared boundary
`current_time = 1`. -/
def stepBoundaryClip : Animation :=
  { animation_samplers := [stepBoundarySampler]
    animation_channels := [trChannel]
    current_time := 1
    start := 0
    «end» := 2 }

/-- STEP rotation track whose stored keyframe quaternions have
magnitude 2. -/
def stepRotSampler : AnimationSampler :=
  { interpolation := .STEP
    inputs := [0, 1]
    outputsVec4 := [⟨0, 0, 0, 2⟩, ⟨0, 0, 0, 2⟩]
    outputs := [] }

/-- Clip holding `stepRotSampler` at `current_time = 0`. -/
def stepRotClip : Animation :=
  { animation_samplers := [stepRotSampler]
    animation_channels := [rotChannel]
    current_time := 0
    start := 0
    «end» := 1 }

/-- CUBIC sampler with two time stamps, two vec4 outputs (so the
malformed-track guard passes) but an EMPTY flat `outputs` array. -/
def cubicEmptyOutputsSampler : AnimationSampler :=
  { interpolation := .CUBICSPLINE
    inputs := [0, 1]
    outputsVec4 := [⟨0, 0, 0, 0⟩, ⟨0, 0, 0, 0⟩]
    outputs := [] }

/-- Clip holding `cubicEmptyOutputsSampler` through a translation
channel with a valid sampler index and a valid node. -/
def cubicEmptyOutputsClip : Animation :=
  { animation_samplers := [cubicEmptyOutputsSampler]
    animation_channels := [trChannel]
    current_time := 0
    start := 0
    «end» := 1 }

/-- Sampler whose `inputs` and `outputsVec4` are both empty. -/
def emptySampler : AnimationSampler :=
  { interpolation := .LINEAR, inputs := [], outputsVec4 := [], outputs := [] }

/-- Clip holding `emptySampler`. -/
def emptyTrackClip : Animation :=
  { animation_samplers := [emptySampler]
    animation_channels := [trChannel]
    current_time := 0
    start := 0
    «end» := 1 }

/-- The element stride a channel's path implies for the flat CUBIC
output array: 4 floats for ROTATION, 3 for TRANSLATION/SCALE (the
`stride` argument of the `cubicSplineInterpolation` call sites). -/
def pathStride : PathType → Nat
  | .ROTATION => 4
  | _ => 3

/-- The `glm::vec4` holding the VALUE entries of keyframe `k` in the
flat CUBIC layout (offset `stride` inside the keyframe block); the
`w` component is the loop's untouched initializer 0 when
`stride = 3`. -/
def keyValueVec (s : AnimationSampler) (k stride : Nat) : Vec4 :=
  ⟨s.outputs.getD (k * stride * 3 + stride) 0,
   s.outputs.getD (k * stride * 3 + stride + 1) 0,
   s.outputs.getD (k * stride * 3 + stride + 2) 0,
   if stride = 4 then s.outputs.getD (k * stride * 3 + stride + 3) 0 else 0⟩

/-- A clip with no channels (evaluation trivially succeeds), used to
exercise the clock contract. -/
def noChannelClip : Animation :=
  { animation_samplers := []
    animation_channels := []
    current_time := 0
    start := 0
    «end» := 1 }

/-- LINEAR track with one MORE time stamp than values. -/
def timesLongerSampler : AnimationSampler :=
  { interpolation := .LINEAR
    inputs := [0, 1, 2]
    outputsVec4 := [⟨0, 0, 0, 0⟩]
    outputs := [] }

/-- Clip holding `timesLongerSampler`. -/
def timesLongerClip : Animation :=
  { animation_samplers := [timesLongerSampler]
    animation_channels := [trChannel]
    current_time := 1/2
    start := 0
    «end» := 1 }

/-- The per-component expression the source's CUBIC loop body computes
(animation.cpp lines 24–28): Hermite basis applied to `p0`, the scaled
tangent `m0 = d * a0` (used for BOTH tangent terms, per line 28), and
`p1`. -/
def hermiteCode (d t p0 a0 p1 : ℚ) : ℚ :=
  (2 * t ^ 3 - 3 * t ^ 2 + 1) * p0 + (t ^ 3 - 2 * t ^ 2 + t) * (d * a0) +
  (-2 * t ^ 3 + 3 * t ^ 2) * p1 + (t ^ 3 - t ^ 2) * (d * a0)

/-! ### Claim theorems -/

/-! ### Helper lemmas -/

/-- A rational-list read within bounds yields `some` of the
`getD`-default view of the element. -/
theorem getElemQ_eq_getD (l : List ℚ) (k : Nat) (h : k < l.length) :
    l[k]? = some (l.getD k 0) := by
  rw [List.getElem?_eq_getElem h, List.getD_eq_getElem]

/-- `glm::mix` at parameter 0 returns its first argument. -/
theorem Vec4.mix_zero (a b : Vec4) : Vec4.mix a b 0 = a := by
  cases a; simp [Vec4.mix]

/-- `glm::mix` at parameter 1 returns its second argument. -/
theorem Vec4.mix_one (a b : Vec4) : Vec4.mix a b 1 = b := by
  cases b; simp [Vec4.mix]



theorem cubic3_eval (s : AnimationSampler) (index : Nat) (time i0 i1 : ℚ)
    (h0 : s.inputs[index]? = some i0) (h1 : s.inputs[index + 1]? = some i1)
    (hb : 9 * (index + 2) ≤ s.outputs.length)
    (hb32 : 9 * (index + 2) < 2 ^ 32) :
    s.cubicSplineInterpolation index time 3 =
      some ⟨hermiteCode (i1 - i0) ((time - i0) / (i1 - i0)) (s.outputs.getD (index * 9 + 3) 0) (s.outputs.getD (index * 9) 0) (s.outputs.getD (index * 9 + 12) 0),
            hermiteCode (i1 - i0) ((time - i0) / (i1 - i0)) (s.outputs.getD (index * 9 + 4) 0) (s.outputs.getD (index * 9 + 1) 0) (s.outputs.getD (index * 9 + 13) 0),
            hermiteCode (i1 - i0) ((time - i0) / (i1 - i0)) (s.outputs.getD (index * 9 + 5) 0) (s.outputs.getD (index * 9 + 2) 0) (s.outputs.getD (index * 9 + 14) 0), 0⟩ := by
  simp only [AnimationSampler.cubicSplineInterpolation, h0, h1, bind,
    Option.some_bind]
  rw [show List.range 3 = [0, 1, 2] from rfl]
  simp only [List.foldlM_cons, List.foldlM_nil, bind, Option.some_bind]
  have r0p0 : s.outputs[(index * 3 * 3 % 2 ^ 32 + 0 + 3) % 2 ^ 32]? = some (s.outputs.getD (index * 9 + 3) 0) := by
    rw [show ((index * 3 * 3 % 2 ^ 32 + 0 + 3) % 2 ^ 32) = index * 9 + 3 by omega]
    exact getElemQ_eq_getD _ _ (by omega)
  have r0a0 : s.outputs[(index * 3 * 3 % 2 ^ 32 + 0 + 0) % 2 ^ 32]? = some (s.outputs.getD (index * 9) 0) := by
    rw [show ((index * 3 * 3 % 2 ^ 32 + 0 + 0) % 2 ^ 32) = index * 9 by omega]
    exact getElemQ_eq_getD _ _ (by omega)
  have r0p1 : s.outputs[((index + 1) * 3 * 3 % 2 ^ 32 + 0 + 3) % 2 ^ 32]? = some (s.outputs.getD (index * 9 + 12) 0) := by
    rw [show (((index + 1) * 3 * 3 % 2 ^ 32 + 0 + 3) % 2 ^ 32) = index * 9 + 12 by omega]
    exact getElemQ_eq_getD _ _ (by omega)
  have r0b1 : s.outputs[((index + 1) * 3 * 3 % 2 ^ 32 + 0 + 3 * 2) % 2 ^ 32]? = some (s.outputs.getD (index * 9 + 15) 0) := by
    rw [show (((index + 1) * 3 * 3 % 2 ^ 32 + 0 + 3 * 2) % 2 ^ 32) = index * 9 + 15 by omega]
    exact getElemQ_eq_getD _ _ (by omega)
  have r1p0 : s.outputs[(index * 3 * 3 % 2 ^ 32 + 1 + 3) % 2 ^ 32]? = some (s.outputs.getD (index * 9 + 4) 0) := by
    rw [show ((index * 3 * 3 % 2 ^ 32 + 1 + 3) % 2 ^ 32) = index * 9 + 4 by omega]
    exact getElemQ_eq_getD _ _ (by omega)
  have r1a0 : s.outputs[(index * 3 * 3 % 2 ^ 32 + 1 + 0) % 2 ^ 32]? = some (s.outputs.getD (index * 9 + 1) 0) := by
    rw [show ((index * 3 * 3 % 2 ^ 32 + 1 + 0) % 2 ^ 32) = index * 9 + 1 by omega]
    exact getElemQ_eq_getD _ _ (by omega)
  have r1p1 : s.outputs[((index + 1) * 3 * 3 % 2 ^ 32 + 1 + 3) % 2 ^ 32]? = some (s.outputs.getD (index * 9 + 13) 0) := by
    rw [show (((index + 1) * 3 * 3 % 2 ^ 32 + 1 + 3) % 2 ^ 32) = index * 9 + 13 by omega]
    exact getElemQ_eq_getD _ _ (by omega)
  have r1b1 : s.outputs[((index + 1) * 3 * 3 % 2 ^ 32 + 1 + 3 * 2) % 2 ^ 32]? = some (s.outputs.getD (index * 9 + 16) 0) := by
    rw [show (((index + 1) * 3 * 3 % 2 ^ 32 + 1 + 3 * 2) % 2 ^ 32) = index * 9 + 16 by omega]
    exact getElemQ_eq_getD _ _ (by omega)
  have r2p0 : s.outputs[(index * 3 * 3 % 2 ^ 32 + 2 + 3) % 2 ^ 32]? = some (s.outputs.getD (index * 9 + 5) 0) := by
    rw [show ((index * 3 * 3 % 2 ^ 32 + 2 + 3) % 2 ^ 32) = index * 9 + 5 by omega]
    exact getElemQ_eq_getD _ _ (by omega)
  have r2a0 : s.outputs[(index * 3 * 3 % 2 ^ 32 + 2 + 0) % 2 ^ 32]? = some (s.outputs.getD (index * 9 + 2) 0) := by
    rw [show ((index * 3 * 3 % 2 ^ 32 + 2 + 0) % 2 ^ 32) = index * 9 + 2 by omega]
    exact getElemQ_eq_getD _ _ (by omega)
  have r2p1 : s.outputs[((index + 1) * 3 * 3 % 2 ^ 32 + 2 + 3) % 2 ^ 32]? = some (s.outputs.getD (index * 9 + 14) 0) := by
    rw [show (((index + 1) * 3 * 3 % 2 ^ 32 + 2 + 3) % 2 ^ 32) = index * 9 + 14 by omega]
    exact getElemQ_eq_getD _ _ (by omega)
  have r2b1 : s.outputs[((index + 1) * 3 * 3 % 2 ^ 32 + 2 + 3 * 2) % 2 ^ 32]? = some (s.outputs.getD (index * 9 + 17) 0) := by
    rw [show (((index + 1) * 3 * 3 % 2 ^ 32 + 2 + 3 * 2) % 2 ^ 32) = index * 9 + 17 by omega]
    exact getElemQ_eq_getD _ _ (by omega)
  simp only [r0p0, r0a0, r0p1, r0b1, r1p0, r1a0, r1p1, r1b1, r2p0, r2a0, r2p1, r2b1, Option.pure_def, Option.some_bind, Vec4.set, hermiteCode]

theorem cubic4_eval (s : AnimationSampler) (index : Nat) (time i0 i1 : ℚ)
    (h0 : s.inputs[index]? = some i0) (h1 : s.inputs[index + 1]? = some i1)
    (hb : 12 * (index + 2) ≤ s.outputs.length)
    (hb32 : 12 * (index + 2) < 2 ^ 32) :
    s.cubicSplineInterpolation index time 4 =
      some ⟨hermiteCode (i1 - i0) ((time - i0) / (i1 - i0)) (s.outputs.getD (index * 12 + 4) 0) (s.outputs.getD (index * 12) 0) (s.outputs.getD (index * 12 + 16) 0),
            hermiteCode (i1 - i0) ((time - i0) / (i1 - i0)) (s.outputs.getD (index * 12 + 5) 0) (s.outputs.getD (index * 12 + 1) 0) (s.outputs.getD (index * 12 + 17) 0),
            hermiteCode (i1 - i0) ((time - i0) / (i1 - i0)) (s.outputs.getD (index * 12 + 6) 0) (s.outputs.getD (index * 12 + 2) 0) (s.outputs.getD (index * 12 + 18) 0),
            hermiteCode (i1 - i0) ((time - i0) / (i1 - i0)) (s.outputs.getD (index * 12 + 7) 0) (s.outputs.getD (index * 12 + 3) 0) (s.outputs.getD (index * 12 + 19) 0)⟩ := by
  simp only [AnimationSampler.cubicSplineInterpolation, h0, h1, bind,
    Option.some_bind]
  rw [show List.range 4 = [0, 1, 2, 3] from rfl]
  simp only [List.foldlM_cons, List.foldlM_nil, bind, Option.some_bind]
  have q0p0 : s.outputs[(index * 4 * 3 % 2 ^ 32 + 0 + 4) % 2 ^ 32]? = some (s.outputs.getD (index * 12 + 4) 0) := by
    rw [show ((index * 4 * 3 % 2 ^ 32 + 0 + 4) % 2 ^ 32) = index * 12 + 4 by omega]
    exact getElemQ_eq_getD _ _ (by omega)
  have q0a0 : s.outputs[(index * 4 * 3 % 2 ^ 32 + 0 + 0) % 2 ^ 32]? = some (s.outputs.getD (index * 12) 0) := by
    rw [show ((index * 4 * 3 % 2 ^ 32 + 0 + 0) % 2 ^ 32) = index * 12 by omega]
    exact getElemQ_eq_getD _ _ (by omega)
  have q0p1 : s.outputs[((index + 1) * 4 * 3 % 2 ^ 32 + 0 + 4) % 2 ^ 32]? = some (s.outputs.getD (index * 12 + 16) 0) := by
    rw [show (((index + 1) * 4 * 3 % 2 ^ 32 + 0 + 4) % 2 ^ 32) = index * 12 + 16 by omega]
    exact getElemQ_eq_getD _ _ (by omega)
  have q0b1 : s.outputs[((index + 1) * 4 * 3 % 2 ^ 32 + 0 + 4 * 2) % 2 ^ 32]? = some (s.outputs.getD (index * 12 + 20) 0) := by
    rw [show (((index + 1) * 4 * 3 % 2 ^ 32 + 0 + 4 * 2) % 2 ^ 32) = index * 12 + 20 by omega]
    exact getElemQ_eq_getD _ _ (by omega)
  have q1p0 : s.outputs[(index * 4 * 3 % 2 ^ 32 + 1 + 4) % 2 ^ 32]? = some (s.outputs.getD (index * 12 + 5) 0) := by
    rw [show ((index * 4 * 3 % 2 ^ 32 + 1 + 4) % 2 ^ 32) = index * 12 + 5 by omega]
    exact getElemQ_eq_getD _ _ (by omega)
  have q1a0 : s.outputs[(index * 4 * 3 % 2 ^ 32 + 1 + 0) % 2 ^ 32]? = some (s.outputs.getD (index * 12 + 1) 0) := by
    rw [show ((index * 4 * 3 % 2 ^ 32 + 1 + 0) % 2 ^ 32) = index * 12 + 1 by omega]
    exact getElemQ_eq_getD _ _ (by omega)
  have q1p1 : s.outputs[((index + 1) * 4 * 3 % 2 ^ 32 + 1 + 4) % 2 ^ 32]? = some (s.outputs.getD (index * 12 + 17) 0) := by
    rw [show (((index + 1) * 4 * 3 % 2 ^ 32 + 1 + 4) % 2 ^ 32) = index * 12 + 17 by omega]
    exact getElemQ_eq_getD _ _ (by omega)
  have q1b1 : s.outputs[((index + 1) * 4 * 3 % 2 ^ 32 + 1 + 4 * 2) % 2 ^ 32]? = some (s.outputs.getD (index * 12 + 21) 0) := by
    rw [show (((index + 1) * 4 * 3 % 2 ^ 32 + 1 + 4 * 2) % 2 ^ 32) = index * 12 + 21 by omega]
    exact getElemQ_eq_getD _ _ (by omega)
  have q2p0 : s.outputs[(index * 4 * 3 % 2 ^ 32 + 2 + 4) % 2 ^ 32]? = some (s.outputs.getD (index * 12 + 6) 0) := by
    rw [show ((index * 4 * 3 % 2 ^ 32 + 2 + 4) % 2 ^ 32) = index * 12 + 6 by omega]
    exact getElemQ_eq_getD _ _ (by omega)
  have q2a0 : s.outputs[(index * 4 * 3 % 2 ^ 32 + 2 + 0) % 2 ^ 32]? = some (s.outputs.getD (index * 12 + 2) 0) := by
    rw [show ((index * 4 * 3 % 2 ^ 32 + 2 + 0) % 2 ^ 32) = index * 12 + 2 by omega]
    exact getElemQ_eq_getD _ _ (by omega)
  have q2p1 : s.outputs[((index + 1) * 4 * 3 % 2 ^ 32 + 2 + 4) % 2 ^ 32]? = some (s.outputs.getD (index * 12 + 18) 0) := by
    rw [show (((index + 1) * 4 * 3 % 2 ^ 32 + 2 + 4) % 2 ^ 32) = index * 12 + 18 by omega]
    exact getElemQ_eq_getD _ _ (by omega)
  have q2b1 : s.outputs[((index + 1) * 4 * 3 % 2 ^ 32 + 2 + 4 * 2) % 2 ^ 32]? = some (s.outputs.getD (index * 12 + 22) 0) := by
    rw [show (((index + 1) * 4 * 3 % 2 ^ 32 + 2 + 4 * 2) % 2 ^ 32) = index * 12 + 22 by omega]
    exact getElemQ_eq_getD _ _ (by omega)
  have q3p0 : s.outputs[(index * 4 * 3 % 2 ^ 32 + 3 + 4) % 2 ^ 32]? = some (s.outputs.getD (index * 12 + 7) 0) := by
    rw [show ((index * 4 * 3 % 2 ^ 32 + 3 + 4) % 2 ^ 32) = index * 12 + 7 by omega]
    exact getElemQ_eq_getD _ _ (by omega)
  have q3a0 : s.outputs[(index * 4 * 3 % 2 ^ 32 + 3 + 0) % 2 ^ 32]? = some (s.outputs.getD (index * 12 + 3) 0) := by
    rw [show ((index * 4 * 3 % 2 ^ 32 + 3 + 0) % 2 ^ 32) = index * 12 + 3 by omega]
    exact getElemQ_eq_getD _ _ (by omega)
  have q3p1 : s.outputs[((index + 1) * 4 * 3 % 2 ^ 32 + 3 + 4) % 2 ^ 32]? = some (s.outputs.getD (index * 12 + 19) 0) := by
    rw [show (((index + 1) * 4 * 3 % 2 ^ 32 + 3 + 4) % 2 ^ 32) = index * 12 + 19 by omega]
    exact getElemQ_eq_getD _ _ (by omega)
  have q3b1 : s.outputs[((index + 1) * 4 * 3 % 2 ^ 32 + 3 + 4 * 2) % 2 ^ 32]? = some (s.outputs.getD (index * 12 + 23) 0) := by
    rw [show (((index + 1) * 4 * 3 % 2 ^ 32 + 3 + 4 * 2) % 2 ^ 32) = index * 12 + 23 by omega]
    exact getElemQ_eq_getD _ _ (by omega)
  simp only [q0p0, q0a0, q0p1, q0b1, q1p0, q1a0, q1p1, q1b1, q2p0, q2a0, q2p1, q2b1, q3p0, q3a0, q3p1, q3b1, Option.pure_def, Option.some_bind, Vec4.set, hermiteCode]

theorem hermiteCode_zero (d p0 a0 p1 : ℚ) : hermiteCode d 0 p0 a0 p1 = p0 := by
  norm_num [hermiteCode]

theorem hermiteCode_one (d p0 a0 p1 : ℚ) : hermiteCode d 1 p0 a0 p1 = p1 := by
  norm_num [hermiteCode]

theorem keyValueVec3 (s : AnimationSampler) (k : Nat) :
    keyValueVec s k 3 =
      ⟨s.outputs.getD (k * 9 + 3) 0, s.outputs.getD (k * 9 + 4) 0,
       s.outputs.getD (k * 9 + 5) 0, 0⟩ := by
  simp only [keyValueVec]
  norm_num
  constructor <;> [skip; constructor] <;> congr 1 <;> ring

theorem keyValueVec3' (s : AnimationSampler) (k : Nat) :
    keyValueVec s (k + 1) 3 =
      ⟨s.outputs.getD (k * 9 + 12) 0, s.outputs.getD (k * 9 + 13) 0,
       s.outputs.getD (k * 9 + 14) 0, 0⟩ := by
  simp only [keyValueVec]
  norm_num
  constructor <;> [skip; constructor] <;> congr 1 <;> ring

theorem keyValueVec4 (s : AnimationSampler) (k : Nat) :
    keyValueVec s k 4 =
      ⟨s.outputs.getD (k * 12 + 4) 0, s.outputs.getD (k * 12 + 5) 0,
       s.outputs.getD (k * 12 + 6) 0, s.outputs.getD (k * 12 + 7) 0⟩ := by
  simp only [keyValueVec]
  norm_num
  refine ⟨?_, ?_, ?_, ?_⟩ <;> congr 1 <;> ring

theorem keyValueVec4' (s : AnimationSampler) (k : Nat) :
    keyValueVec s (k + 1) 4 =
      ⟨s.outputs.getD (k * 12 + 16) 0, s.outputs.getD (k * 12 + 17) 0,
       s.outputs.getD (k * 12 + 18) 0, s.outputs.getD (k * 12 + 19) 0⟩ := by
  simp only [keyValueVec]
  norm_num
  refine ⟨?_, ?_, ?_, ?_⟩ <;> congr 1 <;> ring


theorem segScan_split (s : AnimationSampler) (p : PathType) (ct : ℚ)
    (ni : Nat) (f1 f2 j : Nat) (nodes : List Transform) :
    Animation.segScan s p ct ni j (f1 + f2) nodes =
      (Animation.segScan s p ct ni j f1 nodes).bind
        (Animation.segScan s p ct ni (j + f1) f2) := by
  induction f1 generalizing j nodes with
  | zero => simp [Animation.segScan]
  | succ n ih =>
      rw [show n + 1 + f2 = (n + f2) + 1 by omega]
      simp only [Animation.segScan, Option.bind_assoc]
      congr 1
      funext x
      rw [ih (j + 1) x, show j + (n + 1) = j + 1 + n by omega]

theorem segStep_of_lt (s : AnimationSampler) (p : PathType) (ct : ℚ)
    (ni i : Nat) (ti : ℚ) (nodes : List Transform)
    (h : s.inputs[i]? = some ti) (hgt : ct < ti) :
    Animation.segStep s p ct ni i nodes = some nodes := by
  simp only [Animation.segStep, h, bind, Option.some_bind]
  rw [if_neg (not_le.mpr hgt)]
  rfl

theorem segStep_of_gt (s : AnimationSampler) (p : PathType) (ct : ℚ)
    (ni i : Nat) (ti ti1 : ℚ) (nodes : List Transform)
    (h : s.inputs[i]? = some ti) (h1 : s.inputs[i + 1]? = some ti1)
    (hle : ti ≤ ct) (hgt : ti1 < ct) :
    Animation.segStep s p ct ni i nodes = some nodes := by
  simp only [Animation.segStep, h, h1, bind, Option.some_bind]
  rw [if_pos hle, if_neg (not_le.mpr hgt)]
  rfl

theorem segStep_match (s : AnimationSampler) (p : PathType) (ct : ℚ)
    (ni i : Nat) (ti ti1 : ℚ)
    (h : s.inputs[i]? = some ti) (h1 : s.inputs[i + 1]? = some ti1)
    (hle : ti ≤ ct) (hle2 : ct ≤ ti1)
    (hu : max 0 (ct - ti) / (ti1 - ti) ≤ 1) (nodes : List Transform) :
    Animation.segStep s p ct ni i nodes =
      Animation.segWrite s p ct ni i nodes := by
  simp only [Animation.segStep, h, h1, bind, Option.some_bind]
  rw [if_pos hle, if_pos hle2, if_pos hu]

theorem segScan_all_skip (s : AnimationSampler) (p : PathType) (ct : ℚ)
    (ni : Nat) (f j : Nat)
    (hskip : ∀ k nodes', j ≤ k → k < j + f →
      Animation.segStep s p ct ni k nodes' = some nodes') :
    ∀ nodes, Animation.segScan s p ct ni j f nodes = some nodes := by
  induction f generalizing j with
  | zero => intro nodes; rfl
  | succ n ih =>
      intro nodes
      simp only [Animation.segScan, hskip j nodes (le_refl j) (by omega),
        Option.some_bind]
      exact ih (j + 1) (fun k nodes' hk1 hk2 =>
        hskip k nodes' (by omega) (by omega)) nodes


theorem cubic_total (s : AnimationSampler) (index : Nat) (time : ℚ)
    (stride : Nat) (hst : stride = 3 ∨ stride = 4)
    (hidx : index + 1 < s.inputs.length)
    (hb : 3 * stride * (index + 2) ≤ s.outputs.length)
    (hb32 : 3 * stride * (index + 2) < 2 ^ 32) :
    ∃ v, s.cubicSplineInterpolation index time stride = some v := by
  have h0 := List.getElem?_eq_getElem (show index < s.inputs.length by omega)
  have h1 := List.getElem?_eq_getElem hidx
  rcases hst with h | h <;> subst h
  · exact ⟨_, cubic3_eval s index time _ _ h0 h1 (by omega) (by omega)⟩
  · exact ⟨_, cubic4_eval s index time _ _ h0 h1 (by omega) (by omega)⟩

theorem translate_total (s : AnimationSampler) (index : Nat) (time : ℚ)
    (node : Transform) (hidx : index + 1 < s.inputs.length)
    (hvec : s.inputs.length ≤ s.outputsVec4.length)
    (hcub : s.interpolation = .CUBICSPLINE →
        9 * s.inputs.length ≤ s.outputs.length ∧
        9 * s.inputs.length < 2 ^ 32) :
    ∃ node', s.translate index time node = some node' := by
  have h0 := List.getElem?_eq_getElem (show index < s.inputs.length by omega)
  have h1 := List.getElem?_eq_getElem hidx
  have ho0 := List.getElem?_eq_getElem (show index < s.outputsVec4.length by omega)
  have ho1 := List.getElem?_eq_getElem (show index + 1 < s.outputsVec4.length by omega)
  cases hInt : s.interpolation
  · exact ⟨_, by simp only [AnimationSampler.translate, hInt, h0, h1, ho0,
      ho1, bind, Option.some_bind, pure]; rfl⟩
  · exact ⟨_, by simp only [AnimationSampler.translate, hInt, ho0, bind,
      Option.some_bind, pure]; rfl⟩
  · obtain ⟨hb, hb32⟩ := hcub hInt
    obtain ⟨v, hv⟩ := cubic_total s index time 3 (Or.inl rfl) hidx
      (by omega) (by omega)
    exact ⟨_, by simp only [AnimationSampler.translate, hInt, hv, bind,
      Option.some_bind, pure]; rfl⟩

theorem scale_total (s : AnimationSampler) (index : Nat) (time : ℚ)
    (node : Transform) (hidx : index + 1 < s.inputs.length)
    (hvec : s.inputs.length ≤ s.outputsVec4.length)
    (hcub : s.interpolation = .CUBICSPLINE →
        9 * s.inputs.length ≤ s.outputs.length ∧
        9 * s.inputs.length < 2 ^ 32) :
    ∃ node', s.scale index time node = some node' := by
  have h0 := List.getElem?_eq_getElem (show index < s.inputs.length by omega)
  have h1 := List.getElem?_eq_getElem hidx
  have ho0 := List.getElem?_eq_getElem (show index < s.outputsVec4.length by omega)
  have ho1 := List.getElem?_eq_getElem (show index + 1 < s.outputsVec4.length by omega)
  cases hInt : s.interpolation
  · exact ⟨_, by simp only [AnimationSampler.scale, hInt, h0, h1, ho0,
      ho1, bind, Option.some_bind, pure]; rfl⟩
  · exact ⟨_, by simp only [AnimationSampler.scale, hInt, ho0, bind,
      Option.some_bind, pure]; rfl⟩
  · obtain ⟨hb, hb32⟩ := hcub hInt
    obtain ⟨v, hv⟩ := cubic_total s index time 3 (Or.inl rfl) hidx
      (by omega) (by omega)
    exact ⟨_, by simp only [AnimationSampler.scale, hInt, hv, bind,
      Option.some_bind, pure]; rfl⟩

theorem rotate_total (s : AnimationSampler) (index : Nat) (time : ℚ)
    (node : Transform) (hidx : index + 1 < s.inputs.length)
    (hvec : s.inputs.length ≤ s.outputsVec4.length)
    (hcub : s.interpolation = .CUBICSPLINE →
        12 * s.inputs.length ≤ s.outputs.length ∧
        12 * s.inputs.length < 2 ^ 32) :
    ∃ node', s.rotate index time node = some node' := by
  have h0 := List.getElem?_eq_getElem (show index < s.inputs.length by omega)
  have h1 := List.getElem?_eq_getElem hidx
  have ho0 := List.getElem?_eq_getElem (show index < s.outputsVec4.length by omega)
  have ho1 := List.getElem?_eq_getElem (show index + 1 < s.outputsVec4.length by omega)
  cases hInt : s.interpolation
  · exact ⟨_, by simp only [AnimationSampler.rotate, hInt, h0, h1, ho0,
      ho1, bind, Option.some_bind, pure]; rfl⟩
  · exact ⟨_, by simp only [AnimationSampler.rotate, hInt, ho0, bind,
      Option.some_bind, pure]; rfl⟩
  · obtain ⟨hb, hb32⟩ := hcub hInt
    obtain ⟨v, hv⟩ := cubic_total s index time 4 (Or.inr rfl) hidx
      (by omega) (by omega)
    exact ⟨_, by simp only [AnimationSampler.rotate, hInt, hv, bind,
      Option.some_bind, pure]; rfl⟩

theorem segWrite_total (s : AnimationSampler) (path : PathType) (ct : ℚ)
    (nodeIdx i : Nat) (nodes : List Transform)
    (hidx : i + 1 < s.inputs.length)
    (hnode : nodeIdx < nodes.length)
    (hvec : s.inputs.length ≤ s.outputsVec4.length)
    (hcub : s.interpolation = .CUBICSPLINE →
        3 * pathStride path * s.inputs.length ≤ s.outputs.length ∧
        3 * pathStride path * s.inputs.length < 2 ^ 32) :
    ∃ nodes', Animation.segWrite s path ct nodeIdx i nodes = some nodes' ∧
      nodes'.length = nodes.length := by
  have hn := List.getElem?_eq_getElem hnode
  cases path
  · obtain ⟨node', hnd⟩ := translate_total s i ct nodes[nodeIdx] hidx hvec
      (fun hc => by have := hcub hc; simp only [pathStride] at this; omega)
    exact ⟨_, by simp only [Animation.segWrite, hn, hnd, bind,
      Option.some_bind, pure], List.length_set nodes nodeIdx node'⟩
  · obtain ⟨node', hnd⟩ := rotate_total s i ct nodes[nodeIdx] hidx hvec
      (fun hc => by have := hcub hc; simp only [pathStride] at this; omega)
    exact ⟨_, by simp only [Animation.segWrite, hn, hnd, bind,
      Option.some_bind, pure], List.length_set nodes nodeIdx node'⟩
  · obtain ⟨node', hnd⟩ := scale_total s i ct nodes[nodeIdx] hidx hvec
      (fun hc => by have := hcub hc; simp only [pathStride] at this; omega)
    exact ⟨_, by simp only [Animation.segWrite, hn, hnd, bind,
      Option.some_bind, pure], List.length_set nodes nodeIdx node'⟩

theorem segStep_total (s : AnimationSampler) (path : PathType) (ct : ℚ)
    (nodeIdx i : Nat) (nodes : List Transform)
    (hidx : i + 1 < s.inputs.length)
    (hnode : nodeIdx < nodes.length)
    (hvec : s.inputs.length ≤ s.outputsVec4.length)
    (hcub : s.interpolation = .CUBICSPLINE →
        3 * pathStride path * s.inputs.length ≤ s.outputs.length ∧
        3 * pathStride path * s.inputs.length < 2 ^ 32) :
    ∃ nodes', Animation.segStep s path ct nodeIdx i nodes = some nodes' ∧
      nodes'.length = nodes.length := by
  have h0 := List.getElem?_eq_getElem (show i < s.inputs.length by omega)
  have h1 := List.getElem?_eq_getElem hidx
  simp only [Animation.segStep, h0, h1, bind, Option.some_bind]
  split_ifs with hc1 hc2 hc3
  · exact segWrite_total s path ct nodeIdx i nodes hidx hnode hvec hcub
  · exact ⟨nodes, rfl, rfl⟩
  · exact ⟨nodes, rfl, rfl⟩
  · exact ⟨nodes, rfl, rfl⟩

theorem segScan_total (s : AnimationSampler) (path : PathType) (ct : ℚ)
    (nodeIdx : Nat) (f : Nat)
    (hvec : s.inputs.length ≤ s.outputsVec4.length)
    (hcub : s.interpolation = .CUBICSPLINE →
        3 * pathStride path * s.inputs.length ≤ s.outputs.length ∧
        3 * pathStride path * s.inputs.length < 2 ^ 32) :
    ∀ (j : Nat) (nodes : List Transform), j + f + 1 ≤ s.inputs.length →
      nodeIdx < nodes.length →
      ∃ nodes', Animation.segScan s path ct nodeIdx j f nodes = some nodes' ∧
        nodes'.length = nodes.length := by
  induction f with
  | zero => exact fun j nodes _ _ => ⟨nodes, rfl, rfl⟩
  | succ n ih =>
      intro j nodes hf hnode
      obtain ⟨m, hm, hml⟩ := segStep_total s path ct nodeIdx j nodes
        (by omega) hnode hvec hcub
      obtain ⟨out, hout, houtl⟩ := ih (j + 1) m (by omega) (by omega)
      exact ⟨out, by simp only [Animation.segScan, hm, Option.some_bind, hout],
        by omega⟩

theorem channelStep_total (a : Animation) (nodes : List Transform)
    (ch : AnimationChannel) (smp : AnimationSampler)
    (hs : a.animation_samplers[ch.samplerIndex]? = some smp)
    (hpos : 0 < smp.inputs.length)
    (h64 : smp.inputs.length < 2 ^ 64)
    (hvec : smp.inputs.length ≤ smp.outputsVec4.length)
    (hnode : ch.node < nodes.length)
    (hcub : smp.interpolation = .CUBICSPLINE →
        3 * pathStride ch.path * smp.inputs.length ≤ smp.outputs.length ∧
        3 * pathStride ch.path * smp.inputs.length < 2 ^ 32) :
    ∃ nodes', a.channelStep nodes ch = some nodes' ∧
      nodes'.length = nodes.length := by
  simp only [Animation.channelStep, hs, bind, Option.some_bind]
  split_ifs with hg
  · exact ⟨nodes, rfl, rfl⟩
  · rw [show (smp.inputs.length + (2 ^ 64 - 1)) % 2 ^ 64 =
        smp.inputs.length - 1 by omega]
    exact segScan_total smp ch.path a.current_time ch.node
      (smp.inputs.length - 1) hvec hcub 0 nodes (by omega) hnode

/-- **C1** (code bug): at segment 0 of `cubicBugSampler` (stride 3,
`delta = 1`, `time = 1/2`, all flat outputs zero except the in-tangent
of keyframe 1 on component 0), the documented Hermite formula — final
`(t3 - t2)` term multiplied by `m1 = delta * in_tangent[i+1]` — yields
`-1/8` on component 0, but `cubicSplineInterpolation` yields `0`:
line 28 multiplies the final term by `m0` (and reads the tangents at
the swapped offsets `A`/`B`), leaving the computed `m1` unused. -/
theorem cubicSpline_diverges_from_documented_hermite :
    cubicBugSampler.cubicSplineInterpolation 0 (1/2) 3 = some ⟨0, 0, 0, 0⟩ ∧
    specCubicHermite cubicBugSampler 0 (1/2) 3 = some ⟨-(1/8), 0, 0, 0⟩ ∧
    cubicBugSampler.cubicSplineInterpolation 0 (1/2) 3 ≠
      specCubicHermite cubicBugSampler 0 (1/2) 3 := by
  refine ⟨?_, ?_, ?_⟩ <;>
    norm_num [AnimationSampler.cubicSplineInterpolation, specCubicHermite,
      cubicBugSampler, List.range, List.range.loop, List.foldlM, Vec4.set,
      Option.bind]

/-- **C2** (counterexample): a STEP rotation evaluation writes the raw
keyframe quaternion `(0,0,0,2)` to the node with no normalization; its
magnitude is 2, while magnitude 1 within tolerance `1e-5` would force
the squared magnitude to be at most `(1 + 1/100000)^2 < 4`. -/
theorem step_rotation_not_normalized_cex :
    stepRotClip.update [baseTransform] 0 =
      some (stepRotClip, [{ baseTransform with rotation := GQuat.raw 0 0 0 2 }]) ∧
    (GQuat.raw 0 0 0 2).magSq = some 4 ∧
    ((1 + 1/100000 : ℚ) ^ 2) < 4 := by
  refine ⟨?_, by norm_num [GQuat.magSq], by norm_num⟩
  simp only [Animation.update, Animation.channelStep, List.foldlM,
    stepRotClip, stepRotSampler, rotChannel]
  norm_num [Option.bind]
  simp only [Animation.segScan, Animation.segStep, Animation.segWrite]
  norm_num [AnimationSampler.rotate, Transform.set_rotation, baseTransform,
    Option.bind, advanceTime]

/-- **C3** (counterexample): `valuesLongerClip` has 2 time stamps and 3
vec4 values (values longer than times), yet the channel is NOT
skipped: at `current_time = 1/2` the update writes translation
`(5,0,0)` over the sentinel `(7,7,7)`. -/
theorem values_longer_than_times_not_skipped_cex :
    valuesLongerClip.update [baseTransform] 0 =
      some (valuesLongerClip, [{ baseTransform with translation := ⟨5, 0, 0⟩ }]) ∧
    (⟨5, 0, 0⟩ : Vec3) ≠ baseTransform.translation := by
  refine ⟨?_, by norm_num [baseTransform]⟩
  simp only [Animation.update, Animation.channelStep, List.foldlM,
    valuesLongerClip, valuesLongerSampler, trChannel]
  norm_num [Option.bind]
  simp only [Animation.segScan, Animation.segStep, Animation.segWrite]
  norm_num [AnimationSampler.translate, Transform.set_translation,
    Vec4.mix, Vec4.toVec3, baseTransform, Option.bind, advanceTime]

/-- **C4** (counterexample): on the fresh spec scenario clip, a single
`update(0.5)` evaluates BEFORE advancing the clock: it writes
translation `(0,0,0)` (the value at time 0), not the claimed
`(5,0,0)`, and only then sets `current_time` to `1/2`. -/
theorem advance_half_writes_zero_cex :
    linearScenarioClip.update [baseTransform] (1/2) =
      some ({ linearScenarioClip with current_time := 1/2 },
            [{ baseTransform with translation := ⟨0, 0, 0⟩ }]) ∧
    (⟨0, 0, 0⟩ : Vec3) ≠ ⟨5, 0, 0⟩ := by
  refine ⟨?_, by norm_num⟩
  simp only [Animation.update, Animation.channelStep, List.foldlM,
    linearScenarioClip, linearScenarioSampler, trChannel]
  norm_num [Option.bind]
  simp only [Animation.segScan, Animation.segStep, Animation.segWrite]
  norm_num [AnimationSampler.translate, Transform.set_translation,
    Vec4.mix, Vec4.toVec3, baseTransform, Option.bind, advanceTime]

/-- **C4** (amended): each tick evaluates channels at the pre-advance
`current_time` and then advances the clock. On the spec scenario,
`update(0.5)` writes `(0,0,0)` and leaves `current_time = 1/2`; the
following `update(0.6)` evaluates at `1/2`, writes `(5,0,0)`, and the
advanced time `1.1 > end = 1` resets `current_time` to exactly 0. -/
theorem evaluate_then_advance_scenario :
    linearScenarioClip.update [baseTransform] (1/2) =
      some ({ linearScenarioClip with current_time := 1/2 },
            [{ baseTransform with translation := ⟨0, 0, 0⟩ }]) ∧
    ({ linearScenarioClip with current_time := (1/2 : ℚ) }).update
        [{ baseTransform with translation := ⟨0, 0, 0⟩ }] (3/5) =
      some ({ linearScenarioClip with current_time := 0 },
            [{ baseTransform with translation := ⟨5, 0, 0⟩ }]) := by
  constructor <;>
  · simp only [Animation.update, Animation.channelStep, List.foldlM,
      linearScenarioClip, linearScenarioSampler, trChannel]
    norm_num [Option.bind]
    simp only [Animation.segScan, Animation.segStep, Animation.segWrite]
    norm_num [AnimationSampler.translate, Transform.set_translation,
      Vec4.mix, Vec4.toVec3, baseTransform, Option.bind, advanceTime]

/-- **C6** (counterexample): at the shared boundary `time = 1` of the
STEP track `stepBoundarySampler`, the update loop (which has no
`break`) evaluates segment 0 AND segment 1; the later write wins, so
the final translation is `values[1] = (2,0,0)` — not the segment-0
value `values[0] = (1,0,0)` the claim requires (shown in the second
conjunct as the result of evaluating segment 0 alone). -/
theorem boundary_step_final_from_later_segment_cex :
    stepBoundaryClip.update [baseTransform] 0 =
      some (stepBoundaryClip, [{ baseTransform with translation := ⟨2, 0, 0⟩ }]) ∧
    stepBoundarySampler.translate 0 1 baseTransform =
      some (baseTransform.set_translation ⟨1, 0, 0⟩) ∧
    (⟨2, 0, 0⟩ : Vec3) ≠ ⟨1, 0, 0⟩ := by
  refine ⟨?_, ?_, by norm_num⟩
  · simp only [Animation.update, Animation.channelStep, List.foldlM,
      stepBoundaryClip, stepBoundarySampler, trChannel]
    norm_num [Option.bind]
    simp only [Animation.segScan, Animation.segStep, Animation.segWrite]
    norm_num [AnimationSampler.translate, Transform.set_translation,
      Vec4.toVec3, baseTransform, Option.bind, advanceTime]
  · norm_num [AnimationSampler.translate, stepBoundarySampler,
      Transform.set_translation, Vec4.toVec3, Option.bind]

/-- **C7** (counterexample): CUBIC evaluation does NOT clamp the
fraction. At `time = -1/2 < times[0] = 0` on `cubicNegTimeSampler`
(value of keyframe 0 is 1, everything else 0), the source computes the
unclamped `t = -1/2` and returns 0 on component 0, while the same code
with the spec's clamped fraction (`t = 0`) returns 1. -/
theorem cubic_fraction_unclamped_cex :
    cubicNegTimeSampler.cubicSplineInterpolation 0 (-(1/2)) 3 =
      some ⟨0, 0, 0, 0⟩ ∧
    cubicSplineClampedFraction cubicNegTimeSampler 0 (-(1/2)) 3 =
      some ⟨1, 0, 0, 0⟩ ∧
    cubicNegTimeSampler.cubicSplineInterpolation 0 (-(1/2)) 3 ≠
      cubicSplineClampedFraction cubicNegTimeSampler 0 (-(1/2)) 3 := by
  refine ⟨?_, ?_, ?_⟩ <;>
    norm_num [AnimationSampler.cubicSplineInterpolation,
      cubicSplineClampedFraction, cubicNegTimeSampler, List.range,
      List.range.loop, List.foldlM, Vec4.set, Option.bind]

/-- **C8** (counterexample): a newly constructed clip's `end` is
`std::numeric_limits<float>::min() = 2 ^ (-126)`, a POSITIVE number —
not `-infinity`, which would in particular be negative. -/
theorem end_init_positive_cex :
    (Animation.init [] []).«end» = (2 ^ 126 : ℚ)⁻¹ ∧
    0 < (Animation.init [] []).«end» := by
  refine ⟨rfl, ?_⟩
  rw [Animation.init]
  norm_num [flt_min]

/-- **C8** (amended): a newly constructed clip has
`start = FLT_MAX = 2^128 - 2^104` (the largest finite float, not
`+infinity`), `end = FLT_MIN = 2^(-126)` (the smallest positive normal
float, not `-infinity`), and `current_time = 0`. -/
theorem clip_init_values (samplers : List AnimationSampler)
    (channels : List AnimationChannel) :
    (Animation.init samplers channels).start = 2 ^ 128 - 2 ^ 104 ∧
    (Animation.init samplers channels).«end» = (2 ^ 126 : ℚ)⁻¹ ∧
    (Animation.init samplers channels).current_time = 0 ∧
    (Animation.init samplers channels).animation_samplers = samplers ∧
    (Animation.init samplers channels).animation_channels = channels :=
  ⟨rfl, rfl, rfl, rfl, rfl⟩

/-- **C10** (counterexample): `cubicEmptyOutputsClip` satisfies the
claimed precondition — its only channel's `samplerIndex` resolves to a
sampler with non-empty `inputs` (and the vec4 guard passes) — yet the
update performs an out-of-bounds read: the CUBIC path indexes the
empty flat `outputs` array, which no guard checks. -/
theorem cubic_outputs_oob_despite_precondition_cex :
    cubicEmptyOutputsClip.animation_samplers[trChannel.samplerIndex]? =
      some cubicEmptyOutputsSampler ∧
    cubicEmptyOutputsClip.animation_channels = [trChannel] ∧
    0 < cubicEmptyOutputsSampler.inputs.length ∧
    cubicEmptyOutputsClip.update [baseTransform] 0 = none := by
  refine ⟨rfl, rfl, by norm_num [cubicEmptyOutputsSampler], ?_⟩
  simp only [Animation.update, Animation.channelStep, List.foldlM,
    cubicEmptyOutputsClip, cubicEmptyOutputsSampler, trChannel]
  norm_num [Option.bind]
  simp only [Animation.segScan, Animation.segStep, Animation.segWrite]
  norm_num [AnimationSampler.translate,
    AnimationSampler.cubicSplineInterpolation, List.range, List.range.loop,
    List.foldlM, Option.bind]

/-- **C5**: the clock contract of `update`: whenever `update` completes,
the new `current_time` is the old one plus `delta_time` when that sum
does not exceed `end`, and exactly 0 otherwise; starting from a
non-negative clock and a non-negative `delta_time` the clock stays
non-negative. -/
theorem advance_wrap_contract (a : Animation) (nodes : List Transform)
    (delta_time : ℚ) (a' : Animation) (nodes' : List Transform)
    (hct : 0 ≤ a.current_time) (hdt : 0 ≤ delta_time)
    (h : a.update nodes delta_time = some (a', nodes')) :
    (a.current_time + delta_time ≤ a.«end» →
        a'.current_time = a.current_time + delta_time) ∧
    (a.«end» < a.current_time + delta_time → a'.current_time = 0) ∧
    0 ≤ a'.current_time := by
  have key : a'.current_time = advanceTime a.current_time delta_time a.«end» := by
    simp only [Animation.update, bind, Option.bind_eq_some, pure,
      Option.some.injEq, Prod.mk.injEq] at h
    obtain ⟨n, _, hpair, _⟩ := h
    rw [← hpair]
  refine ⟨fun hle => ?_, fun hlt => ?_, ?_⟩
  · rw [key]; simp only [advanceTime]; rw [if_neg (not_lt.mpr hle)]
  · rw [key]; simp only [advanceTime]; rw [if_pos hlt]
  · rw [key]; simp only [advanceTime]
    split
    · exact le_refl 0
    · exact add_nonneg hct hdt

/-- Witness for `advance_wrap_contract` at the concrete no-channel clip
with `current_time = 0`, `end = 1`, `delta_time = 1/2`. -/
theorem advance_wrap_contract_witness :
    (noChannelClip.current_time + 1/2 ≤ noChannelClip.«end» →
        ({ noChannelClip with current_time := 1/2 } : Animation).current_time =
          noChannelClip.current_time + 1/2) ∧
    (noChannelClip.«end» < noChannelClip.current_time + 1/2 →
        ({ noChannelClip with current_time := 1/2 } : Animation).current_time = 0) ∧
    0 ≤ ({ noChannelClip with current_time := 1/2 } : Animation).current_time :=
  advance_wrap_contract noChannelClip [] (1/2)
    { noChannelClip with current_time := 1/2 } []
    (by norm_num [noChannelClip]) (by norm_num)
    (by norm_num [Animation.update, Animation.channelStep, List.foldlM,
      advanceTime, noChannelClip, Option.bind])

/-- **C3** (amended): a channel whose resolved sampler has strictly
MORE time stamps than vec4 values is skipped: its per-channel step
returns the node list unchanged (the guard only tests
`inputs.size() > outputsVec4.size()`, cf. the counterexample for the
opposite direction). -/
theorem times_longer_than_values_skipped (a : Animation)
    (nodes : List Transform) (ch : AnimationChannel) (smp : AnimationSampler)
    (hs : a.animation_samplers[ch.samplerIndex]? = some smp)
    (hlen : smp.outputsVec4.length < smp.inputs.length) :
    a.channelStep nodes ch = some nodes := by
  simp only [Animation.channelStep, hs, bind, Option.some_bind]
  rw [if_pos hlen]
  rfl

/-- Witness for `times_longer_than_values_skipped` on the concrete clip
whose track has 3 time stamps and 1 value. -/
theorem times_longer_than_values_skipped_witness :
    timesLongerClip.channelStep [baseTransform] trChannel =
      some [baseTransform] :=
  times_longer_than_values_skipped timesLongerClip [baseTransform]
    trChannel timesLongerSampler rfl
    (by norm_num [timesLongerSampler])

/-- **C2** (amended): a completed ROTATION evaluation writes a
`glm::normalize`d quaternion in LINEAR and CUBICSPLINE modes, but in
STEP mode it writes the stored keyframe quaternion unchanged — whose
magnitude is 1 only when the keyframe itself is unit. -/
theorem rotate_normalization_by_mode (s : AnimationSampler) (index : Nat)
    (time : ℚ) (node node' : Transform)
    (h : s.rotate index time node = some node') :
    (s.interpolation = .STEP →
        ∃ o, s.outputsVec4[index]? = some o ∧
          node'.rotation = GQuat.raw o.x o.y o.z o.w) ∧
    ((s.interpolation = .LINEAR ∨ s.interpolation = .CUBICSPLINE) →
        node'.rotation.isNormalizeApplied = true) := by
  constructor
  · intro hstep
    simp only [AnimationSampler.rotate, hstep, bind, Option.bind_eq_some,
      pure, Option.some.injEq] at h
    obtain ⟨o, ho, hnode⟩ := h
    exact ⟨o, ho, by rw [← hnode]; rfl⟩
  · rintro (hm | hm) <;>
      simp only [AnimationSampler.rotate, hm, bind, Option.bind_eq_some,
        pure, Option.some.injEq] at h
    · obtain ⟨i0, _, i1, _, o0, _, o1, _, hnode⟩ := h
      rw [← hnode]; rfl
    · obtain ⟨v, _, hnode⟩ := h
      rw [← hnode]; rfl

/-- Witness for `rotate_normalization_by_mode` at the concrete STEP
rotation sampler. -/
theorem rotate_normalization_by_mode_witness :
    (stepRotSampler.interpolation = .STEP →
        ∃ o, stepRotSampler.outputsVec4[0]? = some o ∧
          (baseTransform.set_rotation (GQuat.raw 0 0 0 2)).rotation =
            GQuat.raw o.x o.y o.z o.w) ∧
    ((stepRotSampler.interpolation = .LINEAR ∨
        stepRotSampler.interpolation = .CUBICSPLINE) →
        (baseTransform.set_rotation
            (GQuat.raw 0 0 0 2)).rotation.isNormalizeApplied = true) :=
  rotate_normalization_by_mode stepRotSampler 0 0 baseTransform
    (baseTransform.set_rotation (GQuat.raw 0 0 0 2)) rfl

/-- **C7** (amended): the LINEAR paths (translate/scale/rotate) compute
the fraction with the clamped numerator `max 0 (time - times[i])`, so
when `time <= times[i]` the fraction is 0: translate and scale write
`values[i]` and rotate passes slerp parameter 0.  (The CUBIC path does
NOT clamp — see the counterexample.) -/
theorem linear_fraction_clamped (s : AnimationSampler) (index : Nat)
    (time i0 i1 : ℚ) (o0 o1 : Vec4) (node : Transform)
    (hLin : s.interpolation = .LINEAR)
    (h0 : s.inputs[index]? = some i0) (h1 : s.inputs[index + 1]? = some i1)
    (ho0 : s.outputsVec4[index]? = some o0)
    (ho1 : s.outputsVec4[index + 1]? = some o1)
    (hle : time ≤ i0) :
    s.translate index time node = some (node.set_translation o0.toVec3) ∧
    s.scale index time node = some (node.set_scale o0.toVec3) ∧
    s.rotate index time node = some (node.set_rotation
      (GQuat.normalize (GQuat.slerp (GQuat.raw o0.x o0.y o0.z o0.w)
        (GQuat.raw o1.x o1.y o1.z o1.w) 0))) := by
  have hu : max 0 (time - i0) / (i1 - i0) = 0 := by
    rw [max_eq_left (by linarith), zero_div]
  refine ⟨?_, ?_, ?_⟩ <;>
    simp only [AnimationSampler.translate, AnimationSampler.scale,
      AnimationSampler.rotate, hLin, h0, h1, ho0, ho1, hu, bind,
      Option.some_bind, Vec4.mix_zero, pure]

/-- **C9**: boundary exactness.  For a segment with
`times[i] < times[i+1]`: in LINEAR mode, evaluating `translate`
exactly at `times[i]` writes `values[i]` and at `times[i+1]` writes
`values[i+1]`; in CUBIC mode (both strides 3 and 4, given the flat
array is long enough), `cubicSplineInterpolation` returns exactly the
stored VALUE entries of keyframe `i` at `times[i]` and of keyframe
`i+1` at `times[i+1]` — exact in rational arithmetic. -/
theorem boundary_exactness_linear_cubic (s : AnimationSampler) (index : Nat)
    (i0 i1 : ℚ) (node : Transform)
    (h0 : s.inputs[index]? = some i0) (h1 : s.inputs[index + 1]? = some i1)
    (hlt : i0 < i1) :
    (s.interpolation = .LINEAR → ∀ o0 o1,
        s.outputsVec4[index]? = some o0 → s.outputsVec4[index + 1]? = some o1 →
        s.translate index i0 node = some (node.set_translation o0.toVec3) ∧
        s.translate index i1 node = some (node.set_translation o1.toVec3)) ∧
    (9 * (index + 2) ≤ s.outputs.length → 9 * (index + 2) < 2 ^ 32 →
        s.cubicSplineInterpolation index i0 3 = some (keyValueVec s index 3) ∧
        s.cubicSplineInterpolation index i1 3 = some (keyValueVec s (index + 1) 3)) ∧
    (12 * (index + 2) ≤ s.outputs.length → 12 * (index + 2) < 2 ^ 32 →
        s.cubicSplineInterpolation index i0 4 = some (keyValueVec s index 4) ∧
        s.cubicSplineInterpolation index i1 4 = some (keyValueVec s (index + 1) 4)) := by
  have hz : (i0 - i0) / (i1 - i0) = 0 := by rw [sub_self, zero_div]
  have hone : (i1 - i0) / (i1 - i0) = 1 :=
    div_self (sub_ne_zero_of_ne (ne_of_gt hlt))
  refine ⟨?_, ?_, ?_⟩
  · intro hLin o0 o1 ho0 ho1
    have hu0 : max 0 (i0 - i0) / (i1 - i0) = 0 := by
      rw [max_eq_left (by linarith), zero_div]
    have hu1 : max 0 (i1 - i0) / (i1 - i0) = 1 := by
      rw [max_eq_right (by linarith)]; exact hone
    constructor <;>
      simp only [AnimationSampler.translate, hLin, h0, h1, ho0, ho1, hu0,
        hu1, bind, Option.some_bind, Vec4.mix_zero, Vec4.mix_one, pure]
  · intro hb hb32
    constructor
    · rw [cubic3_eval s index i0 i0 i1 h0 h1 hb hb32, keyValueVec3]
      simp only [hz, hermiteCode_zero]
    · rw [cubic3_eval s index i1 i0 i1 h0 h1 hb hb32, keyValueVec3']
      simp only [hone, hermiteCode_one]
  · intro hb hb32
    constructor
    · rw [cubic4_eval s index i0 i0 i1 h0 h1 hb hb32, keyValueVec4]
      simp only [hz, hermiteCode_zero]
    · rw [cubic4_eval s index i1 i0 i1 h0 h1 hb hb32, keyValueVec4']
      simp only [hone, hermiteCode_one]

/-- Witness for `linear_fraction_clamped` at the concrete LINEAR
scenario sampler with `time = -1 < times[0] = 0`. -/
theorem linear_fraction_clamped_witness :
    linearScenarioSampler.translate 0 (-1) baseTransform =
      some (baseTransform.set_translation (⟨0, 0, 0, 0⟩ : Vec4).toVec3) ∧
    linearScenarioSampler.scale 0 (-1) baseTransform =
      some (baseTransform.set_scale (⟨0, 0, 0, 0⟩ : Vec4).toVec3) ∧
    linearScenarioSampler.rotate 0 (-1) baseTransform =
      some (baseTransform.set_rotation
        (GQuat.normalize (GQuat.slerp (GQuat.raw 0 0 0 0)
          (GQuat.raw 10 0 0 0) 0))) :=
  linear_fraction_clamped linearScenarioSampler 0 (-1) 0 1
    ⟨0, 0, 0, 0⟩ ⟨10, 0, 0, 0⟩ baseTransform rfl rfl rfl rfl rfl
    (by norm_num)

/-- Witness for `boundary_exactness_linear_cubic`: the LINEAR part at
the concrete scenario sampler, and the stride-3 CUBIC part at the
concrete 18-element cubic sampler. -/
theorem boundary_exactness_linear_cubic_witness :
    (linearScenarioSampler.translate 0 0 baseTransform =
        some (baseTransform.set_translation (⟨0, 0, 0, 0⟩ : Vec4).toVec3) ∧
      linearScenarioSampler.translate 0 1 baseTransform =
        some (baseTransform.set_translation (⟨10, 0, 0, 0⟩ : Vec4).toVec3)) ∧
    (cubicBugSampler.cubicSplineInterpolation 0 0 3 =
        some (keyValueVec cubicBugSampler 0 3) ∧
      cubicBugSampler.cubicSplineInterpolation 0 1 3 =
        some (keyValueVec cubicBugSampler 1 3)) :=
  ⟨(boundary_exactness_linear_cubic linearScenarioSampler 0 0 1
      baseTransform rfl rfl (by norm_num)).1 rfl ⟨0, 0, 0, 0⟩ ⟨10, 0, 0, 0⟩
      rfl rfl,
   (boundary_exactness_linear_cubic cubicBugSampler 0 0 1
      baseTransform rfl rfl (by norm_num)).2.1
      (by norm_num [cubicBugSampler]) (by norm_num)⟩

/-- **C6** (amended): at a time exactly equal to the shared boundary
`times[i+1]` of two segments of a strictly increasing track, the
per-channel step deterministically evaluates BOTH segment `i` (at
fraction 1) and segment `i+1` (at fraction 0), in ascending order;
the later write wins, so the value finally written comes from segment
`i+1` (for STEP mode: `values[i+1]`, not `values[i]`). -/
theorem boundary_double_evaluation
    (a : Animation) (nodes : List Transform) (ch : AnimationChannel)
    (smp : AnimationSampler) (i : Nat) (tb : ℚ)
    (hs : a.animation_samplers[ch.samplerIndex]? = some smp)
    (hguard : smp.inputs.length ≤ smp.outputsVec4.length)
    (hmono : smp.inputs.Pairwise (· < ·))
    (hlen64 : smp.inputs.length < 2 ^ 64)
    (hi : i + 2 < smp.inputs.length)
    (hb : smp.inputs[i + 1]? = some tb)
    (hct : a.current_time = tb) :
    a.channelStep nodes ch =
      (Animation.segWrite smp ch.path tb ch.node i nodes).bind
        (Animation.segWrite smp ch.path tb ch.node (i + 1)) := by
  have hmono' := List.pairwise_iff_getElem.mp hmono
  have hi1 : i + 1 < smp.inputs.length := by omega
  have hbv : smp.inputs[i + 1] = tb := by
    rw [List.getElem?_eq_getElem hi1] at hb
    exact Option.some_inj.mp hb
  have hread : ∀ k, (hk : k < smp.inputs.length) →
      smp.inputs[k]? = some smp.inputs[k] := fun k hk =>
    List.getElem?_eq_getElem hk
  have hlti : smp.inputs[i] < tb := by
    rw [← hbv]
    exact hmono' i (i + 1) (by omega) (by omega) (by omega)
  have hgti : ∀ k, i + 1 < k → (hk : k < smp.inputs.length) → tb < smp.inputs[k] := by
    intro k hik hk
    rw [← hbv]
    exact hmono' (i + 1) k (by omega) hk hik
  simp only [Animation.channelStep, hs, bind, Option.some_bind]
  rw [if_neg (not_lt.mpr hguard)]
  rw [show (smp.inputs.length + (2 ^ 64 - 1)) % 2 ^ 64 =
        smp.inputs.length - 1 by omega]
  rw [hct]
  rw [show smp.inputs.length - 1 =
        i + ((smp.inputs.length - i - 3 + 1) + 1) by omega]
  rw [segScan_split]
  rw [segScan_all_skip smp ch.path tb ch.node i 0
        (fun k nodes' hk0 hki => by
          have hk : k < smp.inputs.length := by omega
          have hk1 : k + 1 < smp.inputs.length := by omega
          refine segStep_of_gt smp ch.path tb ch.node k
            smp.inputs[k] smp.inputs[k + 1] nodes'
            (hread k hk) (hread (k + 1) hk1) ?_ ?_
          · rw [← hbv]
            exact le_of_lt (hmono' k (i + 1) hk hi1 (by omega))
          · rw [← hbv]
            exact hmono' (k + 1) (i + 1) hk1 hi1 (by omega))
        nodes]
  simp only [Option.some_bind, Nat.zero_add]
  simp only [Animation.segScan]
  have hii : i < smp.inputs.length := by omega
  have hi2 : i + 2 < smp.inputs.length := hi
  have hm1 : ∀ nodes', Animation.segStep smp ch.path tb ch.node i nodes' =
      Animation.segWrite smp ch.path tb ch.node i nodes' := by
    intro nodes'
    refine segStep_match smp ch.path tb ch.node i
      smp.inputs[i] tb (hread i hii) hb (le_of_lt hlti) le_rfl ?_ nodes'
    rw [max_eq_right (by linarith), div_self (sub_ne_zero_of_ne (ne_of_gt hlti))]
  have hm2 : ∀ nodes', Animation.segStep smp ch.path tb ch.node (i + 1) nodes' =
      Animation.segWrite smp ch.path tb ch.node (i + 1) nodes' := by
    intro nodes'
    have hlt2 : tb < smp.inputs[i + 2] := hgti (i + 2) (by omega) hi2
    refine segStep_match smp ch.path tb ch.node (i + 1)
      tb smp.inputs[i + 2] hb (hread (i + 2) hi2) le_rfl (le_of_lt hlt2) ?_ nodes'
    rw [sub_self]
    norm_num
  have hskip2 : ∀ nodes',
      Animation.segScan smp ch.path tb ch.node (i + 1 + 1)
        (smp.inputs.length - i - 3) nodes' = some nodes' :=
    segScan_all_skip smp ch.path tb ch.node (smp.inputs.length - i - 3) (i + 1 + 1)
      (fun k nodes' hk0 hki => by
        have hk : k < smp.inputs.length := by omega
        exact segStep_of_lt smp ch.path tb ch.node k smp.inputs[k] nodes'
          (hread k hk) (hgti k (by omega) hk))
  simp only [hm1, hm2, hskip2, Option.bind_some]

/-- Witness for `boundary_double_evaluation` at the concrete STEP
boundary clip (`current_time = 1 = times[1]`). -/
theorem boundary_double_evaluation_witness :
    stepBoundaryClip.channelStep [baseTransform] trChannel =
      (Animation.segWrite stepBoundarySampler .TRANSLATION 1 0 0
          [baseTransform]).bind
        (Animation.segWrite stepBoundarySampler .TRANSLATION 1 0 1) :=
  boundary_double_evaluation stepBoundaryClip [baseTransform] trChannel
    stepBoundarySampler 0 1 rfl (by norm_num [stepBoundarySampler])
    (by norm_num [stepBoundarySampler, List.pairwise_cons])
    (by norm_num [stepBoundarySampler]) (by norm_num [stepBoundarySampler])
    rfl rfl

/-- **C10** (amended): the claimed precondition (valid `samplerIndex`,
non-empty `inputs`) is NOT sufficient (see the counterexample); the
per-tick update stays in bounds under the strengthened precondition
that every channel resolves to a sampler with `0 < inputs.length < 2^64`,
`inputs.length <= outputsVec4.length`, a valid node index, and — for
CUBICSPLINE samplers — a flat `outputs` array of at least
`3 * stride * inputs.length` floats (stride 4 for ROTATION, else 3).
The second conjunct confirms the claim's underflow scenario: with
`inputs` and `outputsVec4` both empty the guard does not skip, the
`size_t` bound `inputs.size() - 1` wraps to `2^64 - 1`, and the very
first iteration reads out of bounds. -/
theorem update_in_bounds (a : Animation) (nodes : List Transform)
    (delta_time : ℚ)
    (h : ∀ ch ∈ a.animation_channels, ∃ smp,
        a.animation_samplers[ch.samplerIndex]? = some smp ∧
        0 < smp.inputs.length ∧ smp.inputs.length < 2 ^ 64 ∧
        smp.inputs.length ≤ smp.outputsVec4.length ∧
        ch.node < nodes.length ∧
        (smp.interpolation = .CUBICSPLINE →
          3 * pathStride ch.path * smp.inputs.length ≤ smp.outputs.length ∧
          3 * pathStride ch.path * smp.inputs.length < 2 ^ 32)) :
    (∃ r, a.update nodes delta_time = some r) ∧
    emptyTrackClip.update [baseTransform] 0 = none := by
  constructor
  · have fold : ∀ (chs : List AnimationChannel),
        (∀ ch ∈ chs, ch ∈ a.animation_channels) →
        ∀ (ns : List Transform), ns.length = nodes.length →
        ∃ out, List.foldlM (Animation.channelStep a) ns chs = some out := by
      intro chs
      induction chs with
      | nil => exact fun _ ns _ => ⟨ns, rfl⟩
      | cons c cs ih =>
          intro hmem ns hlen
          obtain ⟨smp, hs, hpos, h64, hvec, hnode, hcub⟩ :=
            h c (hmem c (List.mem_cons_self c cs))
          obtain ⟨m, hm, hml⟩ := channelStep_total a ns c smp hs hpos h64
            hvec (by omega) hcub
          obtain ⟨out, hout⟩ := ih
            (fun ch hch => hmem ch (List.mem_cons_of_mem c hch)) m (by omega)
          exact ⟨out, by simp only [List.foldlM_cons, hm, bind,
            Option.some_bind, hout]⟩
    obtain ⟨out, hout⟩ := fold a.animation_channels (fun ch hch => hch) nodes rfl
    refine ⟨({ a with current_time := advanceTime a.current_time delta_time a.«end» }, out), ?_⟩
    simp only [Animation.update, hout, bind, Option.some_bind, pure]
  · rfl

/-- Witness for `update_in_bounds` at the concrete STEP boundary clip. -/
theorem update_in_bounds_witness :
    (∃ r, stepBoundaryClip.update [baseTransform] 0 = some r) ∧
    emptyTrackClip.update [baseTransform] 0 = none :=
  update_in_bounds stepBoundaryClip [baseTransform] 0
    (by
      intro ch hch
      simp only [stepBoundaryClip, List.mem_singleton] at hch
      subst hch
      refine ⟨stepBoundarySampler, rfl, by norm_num [stepBoundarySampler],
        by norm_num [stepBoundarySampler], by norm_num [stepBoundarySampler],
        by norm_num [trChannel], ?_⟩
      intro hc
      simp [stepBoundarySampler] at hc)
